import Mathlib

/-!
Shallow embedding of the book-manager application (Go, four-layer CRUD app):
  * `internal/model/book.go`      — data model (Book, requests, filter)
  * `internal/repository/book_repository.go` — store operations (Create/GetByID/List/Update/Delete/Count)
  * usecase layer (`book_usecase.go`) — validation, business rules, state machine, statistics
  * `internal/handler/book_handler.go` — HTTP status selection
  * `internal/database/migration.sql` — column defaults, CHECK constraints, updated_at trigger

Modelling conventions:
  * Timestamps (`time.Time`, SQL DATE/DATETIME) are modelled as `Int`; the Go zero
    value of `time.Time` (which `validate:"required"` rejects) is modelled as `0`.
    `t1.After(t2)` is strict `t2 < t1`; a single `now` parameter stands for both
    `time.Now()` in Go and `CURRENT_TIMESTAMP` in SQLite within one call.
  * Go pointer fields (`*T`, nil meaning "absent") are modelled as `Option`.
  * The SQLite engine is an external collaborator (spec §1).  Its row store is
    modelled as a list of rows in rowid (insertion) order; `ORDER BY created_at DESC`
    is modelled as a stable merge sort on that list (spec §4.1/§4.2 require the
    tie-break by insertion order); SQL `LIKE '%x%'` is modelled as substring
    containment; comparison with a NULL column does not match, so `rating = ?`
    only matches rows whose rating is present.
  * The Go code reports failures as `fmt.Errorf` values; the spec's error
    taxonomy (§7) names each failure site.  `ErrKind` records, for each error
    site of the code, the taxonomy kind the spec assigns to that site.
-/

namespace BookManager

/-- Timestamps, modelled as integers; `0` is the Go zero time. -/
abbrev Time := Int

/-- The Go zero value of `time.Time`, rejected by `validate:"required"`. -/
def timeZero : Time := 0

/-- `ReadingStatus` from `model/book.go`: the four-valued status enum, also
enforced by the CHECK constraint in `migration.sql`. -/
inductive ReadingStatus where
  | notStarted
  | reading
  | completed
  | dropped
deriving DecidableEq

/-- `Book` from `model/book.go`; one row of the `books` table. -/
@[ext]
structure Book where
  id : Int
  title : String
  author : String
  isbn : String
  publisher : String
  publishedDate : Option Time
  purchaseDate : Time
  purchasePrice : Int
  status : ReadingStatus
  startReadDate : Option Time
  endReadDate : Option Time
  rating : Option Int
  notes : String
  tags : String
  createdAt : Time
  updatedAt : Time
deriving DecidableEq

/-- `CreateBookRequest` from `model/book.go`. -/
structure CreateBookRequest where
  title : String
  author : String
  isbn : String
  publisher : String
  publishedDate : Option Time
  purchaseDate : Time
  purchasePrice : Int
  tags : String
  notes : String
deriving DecidableEq

/-- `UpdateBookRequest` from `model/book.go`: every field optional,
absent (`none`) meaning "leave unchanged". -/
structure UpdateBookRequest where
  title : Option String := none
  author : Option String := none
  isbn : Option String := none
  publisher : Option String := none
  publishedDate : Option Time := none
  purchasePrice : Option Int := none
  status : Option ReadingStatus := none
  startReadDate : Option Time := none
  endReadDate : Option Time := none
  rating : Option Int := none
  notes : Option String := none
  tags : Option String := none
deriving DecidableEq

/-- `BookFilter` from `model/book.go`. -/
structure BookFilter where
  status : Option ReadingStatus := none
  author : Option String := none
  publisher : Option String := none
  tag : Option String := none
  rating : Option Int := none
  search : Option String := none
deriving DecidableEq

/-- The `books` table: rows in rowid (insertion) order plus the
AUTOINCREMENT counter. -/
structure Table where
  rows : List Book
  nextId : Int
deriving DecidableEq

/-- A freshly initialised database: no rows, AUTOINCREMENT starts at 1. -/
def emptyTable : Table := { rows := [], nextId := 1 }

/-- Character-list helper for SQL `LIKE`: does `hay` start with `needle`? -/
def startsWithChars : List Char → List Char → Bool
  | _, [] => true
  | [], _ :: _ => false
  | a :: as, b :: bs => a == b && startsWithChars as bs

/-- Character-list helper for SQL `LIKE`: does `hay` contain `needle`? -/
def containsChars : List Char → List Char → Bool
  | [], needle => needle.isEmpty
  | a :: as, needle => startsWithChars (a :: as) needle || containsChars as needle

/-- SQL `column LIKE '%' || pat || '%'`, modelled as substring containment
(the repository always wraps the user value in `%…%`; SQLite's ASCII case
folding is immaterial to the claims). -/
def likeContains (hay pat : String) : Bool :=
  containsChars hay.toList pat.toList

/-- The WHERE clause assembled by `bookRepository.List`
(`book_repository.go` lines 149–185): six optional AND-combined predicates,
built in the order status, author, publisher, rating, tag, search. -/
def matchesListFilter : Option BookFilter → Book → Bool
  | none, _ => true
  | some f, b =>
    (match f.status with | none => true | some s => b.status == s) &&
    (match f.author with | none => true | some a => b.author == a) &&
    (match f.publisher with | none => true | some p => b.publisher == p) &&
    (match f.rating with | none => true | some r => b.rating == some r) &&
    (match f.tag with | none => true | some tg => likeContains b.tags tg) &&
    (match f.search with | none => true | some s => likeContains b.title s || likeContains b.author s)

/-- The WHERE clause assembled by `bookRepository.Count`
(`book_repository.go` lines 376–407): the same six predicates, assembled by a
separate copy of the same code. -/
def matchesCountFilter : Option BookFilter → Book → Bool
  | none, _ => true
  | some f, b =>
    (match f.status with | none => true | some s => b.status == s) &&
    (match f.author with | none => true | some a => b.author == a) &&
    (match f.publisher with | none => true | some p => b.publisher == p) &&
    (match f.rating with | none => true | some r => b.rating == some r) &&
    (match f.tag with | none => true | some tg => likeContains b.tags tg) &&
    (match f.search with | none => true | some s => likeContains b.title s || likeContains b.author s)

/-- `ORDER BY created_at DESC` comparator. -/
def createdDesc (a b : Book) : Bool :=
  decide (b.createdAt ≤ a.createdAt)

/-- `bookRepository.GetByID`: `SELECT … WHERE id = ?`, `none` for
`sql.ErrNoRows`.  On a table with unique ids this is the unique row with the
given id; on an arbitrary list it is the first. -/
def getByID (t : Table) (id : Int) : Option Book :=
  t.rows.find? (fun b => b.id == id)

/-- `bookRepository.Create`: INSERT with the schema defaults of
`migration.sql` (`status` defaults to `'not_started'`, the read dates and
rating are NULL, `created_at`/`updated_at` default to `CURRENT_TIMESTAMP`),
then `GetByID` on the fresh AUTOINCREMENT rowid, which returns exactly the
inserted row. -/
def tableCreate (t : Table) (req : CreateBookRequest) (now : Time) : Table × Book :=
  let b : Book :=
    { id := t.nextId
      title := req.title
      author := req.author
      isbn := req.isbn
      publisher := req.publisher
      publishedDate := req.publishedDate
      purchaseDate := req.purchaseDate
      purchasePrice := req.purchasePrice
      status := .notStarted
      startReadDate := none
      endReadDate := none
      rating := none
      notes := req.notes
      tags := req.tags
      createdAt := now
      updatedAt := now }
  ({ rows := t.rows ++ [b], nextId := t.nextId + 1 }, b)

/-- Modelled from the spec: the ordering the external SQL engine (absent
from the repository, spec §1 treats it as an opaque row store) produces for
`ORDER BY created_at DESC` — §4.1/§4.2 specify descending creation time
with ties broken by insertion order, i.e. a stable sort over the rows in
rowid order. -/
def orderByCreatedAtDesc (rows : List Book) : List Book :=
  rows.mergeSort createdDesc

/-- `bookRepository.List`: WHERE (six predicates), `ORDER BY created_at DESC`
(stable over rowid order), then `LIMIT ?` only when `limit > 0` and
`OFFSET ?` only when additionally `offset > 0`. -/
def tableList (t : Table) (f : Option BookFilter) (limit offset : Int) : List Book :=
  let rows := orderByCreatedAtDesc (t.rows.filter (matchesListFilter f))
  if 0 < limit then
    (if 0 < offset then rows.drop offset.toNat else rows).take limit.toNat
  else rows

/-- `bookRepository.Count`: `SELECT COUNT(*)` with the same six predicates. -/
def tableCount (t : Table) (f : Option BookFilter) : Nat :=
  (t.rows.filter (matchesCountFilter f)).length

/-- Does the update request carry at least one field?  Mirrors
`len(setParts) == 0` in `bookRepository.Update`: each of the twelve request
fields contributes a SET clause exactly when it is present. -/
def hasAnyField (req : UpdateBookRequest) : Bool :=
  req.title.isSome || req.author.isSome || req.isbn.isSome || req.publisher.isSome ||
  req.publishedDate.isSome || req.purchasePrice.isSome || req.status.isSome ||
  req.startReadDate.isSome || req.endReadDate.isSome || req.rating.isSome ||
  req.notes.isSome || req.tags.isSome

/-- The effect of the dynamically assembled `UPDATE … SET …` of
`bookRepository.Update` on one row, including the two auto-stamp rules
(status set to reading with no explicit start date stamps
`start_read_date = now`; status set to completed or dropped with no explicit
end date stamps `end_read_date = now`) and the `update_books_updated_at`
trigger of `migration.sql` refreshing `updated_at`. -/
def applyUpdateRow (req : UpdateBookRequest) (now : Time) (b : Book) : Book :=
  { b with
    title := req.title.getD b.title
    author := req.author.getD b.author
    isbn := req.isbn.getD b.isbn
    publisher := req.publisher.getD b.publisher
    publishedDate := match req.publishedDate with
      | some d => some d
      | none => b.publishedDate
    purchasePrice := req.purchasePrice.getD b.purchasePrice
    status := req.status.getD b.status
    startReadDate := match req.startReadDate with
      | some d => some d
      | none => if req.status == some .reading then some now else b.startReadDate
    endReadDate := match req.endReadDate with
      | some d => some d
      | none =>
        if req.status == some .completed || req.status == some .dropped then some now
        else b.endReadDate
    rating := match req.rating with
      | some r => some r
      | none => b.rating
    notes := req.notes.getD b.notes
    tags := req.tags.getD b.tags
    updatedAt := now }

/-- The table after the `UPDATE … WHERE id = ?` statement: every row
matching the id is rewritten by the SET clauses. -/
def updatedTable (t : Table) (id : Int) (req : UpdateBookRequest) (now : Time) : Table :=
  { rows := t.rows.map (fun x => if x.id == id then applyUpdateRow req now x else x),
    nextId := t.nextId }

/-- `bookRepository.Update`: when no field is present, no UPDATE is executed
and the current row is returned as-is (lines 322–325); otherwise the UPDATE
(with the trigger) rewrites every row matching the id and the updated row is
re-read via `GetByID`. -/
def tableUpdate (t : Table) (id : Int) (req : UpdateBookRequest) (now : Time) :
    Table × Option Book :=
  if hasAnyField req then
    (updatedTable t id req now, getByID (updatedTable t id req now) id)
  else
    (t, getByID t id)

/-- `bookRepository.Delete`: `DELETE FROM books WHERE id = ?`, reporting how
many rows were affected. -/
def tableDelete (t : Table) (id : Int) : Table × Nat :=
  let remaining := t.rows.filter (fun b => !(b.id == id))
  ({ rows := remaining, nextId := t.nextId }, t.rows.length - remaining.length)

/-- The spec's error taxonomy (§7), naming the failure sites of the Go code:
which constructor a site carries is exactly the kind §7 assigns to it. -/
inductive ErrKind where
  | badRequest
  | validationError
  | businessRuleError
  | invalidArgument
  | notFound
deriving DecidableEq

deriving instance DecidableEq for Except

/-- The rating range guard `req.Rating != nil && (*req.Rating < 1 || *req.Rating > 5)`
shared by `UpdateBook` and `FinishReading` in the usecase layer. -/
def ratingOutOfRange : Option Int → Bool
  | some r => decide (r < 1) || decide (5 < r)
  | none => false

/-- `bookUsecase.CreateBook`: `validator.Struct` rejects an empty required
field (empty title, empty author, zero-valued purchase date); then the
business rule rejects `req.PurchaseDate.After(time.Now())`; then the store
inserts. -/
def createBook (t : Table) (req : CreateBookRequest) (now : Time) :
    Except ErrKind (Table × Book) :=
  if req.title == "" || req.author == "" || req.purchaseDate == timeZero then
    .error .validationError
  else if now < req.purchaseDate then
    .error .businessRuleError
  else
    .ok (tableCreate t req now)

/-- `bookUsecase.GetBook`: id must be positive, then the row must exist. -/
def getBook (t : Table) (id : Int) : Except ErrKind Book :=
  if id ≤ 0 then .error .invalidArgument
  else
    match getByID t id with
    | none => .error .notFound
    | some b => .ok b

/-- `bookUsecase.UpdateBook`: positive id, existing row, rating (when
present) in [1,5], then the partial update is delegated to the store. -/
def updateBook (t : Table) (id : Int) (req : UpdateBookRequest) (now : Time) :
    Except ErrKind (Table × Book) :=
  if id ≤ 0 then .error .invalidArgument
  else
    match getByID t id with
    | none => .error .notFound
    | some _ =>
      if ratingOutOfRange req.rating then .error .businessRuleError
      else
        match tableUpdate t id req now with
        | (t', some b') => .ok (t', b')
        | (_, none) => .error .notFound

/-- `bookUsecase.DeleteBook`: positive id, existing row, then the store
delete (which itself reports not-found when zero rows were affected). -/
def deleteBook (t : Table) (id : Int) : Except ErrKind Table :=
  if id ≤ 0 then .error .invalidArgument
  else
    match getByID t id with
    | none => .error .notFound
    | some _ =>
      let r := tableDelete t id
      if r.2 == 0 then .error .notFound else .ok r.1

/-- The update request `StartReading` builds: `{Status: reading, StartReadDate: now}`. -/
def startReq (now : Time) : UpdateBookRequest :=
  { status := some .reading, startReadDate := some now }

/-- The update request `FinishReading` builds:
`{Status: completed, EndReadDate: now, Rating: rating}`. -/
def finishReq (rating : Option Int) (now : Time) : UpdateBookRequest :=
  { status := some .completed, endReadDate := some now, rating := rating }

/-- `bookUsecase.StartReading`: positive id, existing row; "already reading"
and "already completed" are business-rule failures; otherwise the store
receives `{Status: reading, StartReadDate: now}`. -/
def startReading (t : Table) (id : Int) (now : Time) :
    Except ErrKind (Table × Book) :=
  if id ≤ 0 then .error .invalidArgument
  else
    match getByID t id with
    | none => .error .notFound
    | some book =>
      if book.status == .reading then .error .businessRuleError
      else if book.status == .completed then .error .businessRuleError
      else
        match tableUpdate t id (startReq now) now with
        | (t', some b') => .ok (t', b')
        | (_, none) => .error .notFound

/-- `bookUsecase.FinishReading`: positive id, existing row; "not currently
reading" and a supplied rating outside [1,5] are business-rule failures;
otherwise the store receives `{Status: completed, EndReadDate: now, Rating: rating}`. -/
def finishReading (t : Table) (id : Int) (rating : Option Int) (now : Time) :
    Except ErrKind (Table × Book) :=
  if id ≤ 0 then .error .invalidArgument
  else
    match getByID t id with
    | none => .error .notFound
    | some book =>
      if !(book.status == .reading) then .error .businessRuleError
      else if ratingOutOfRange rating then .error .businessRuleError
      else
        match tableUpdate t id (finishReq rating now) now with
        | (t', some b') => .ok (t', b')
        | (_, none) => .error .notFound

/-- `BookStatistics` from the usecase layer. -/
structure BookStatistics where
  totalBooks : Nat
  notStartedBooks : Nat
  readingBooks : Nat
  completedBooks : Nat
  droppedBooks : Nat
  totalSpent : Int
  averageRating : Option ℚ
  booksThisMonth : Nat
  completedThisMonth : Nat

/-- A filter selecting a single status, as built by `GetStatistics`. -/
def statusFilter (s : ReadingStatus) : BookFilter := { status := some s }

/-- `bookUsecase.GetStatistics`: `Count(nil)` for the total, one
`Count({Status: s})` per status, then one scan of `List(nil, 0, 0)` for the
money, rating, and this-month aggregates.  `thisMonthStart` stands for
`time.Date(now.Year(), now.Month(), 1, 0, 0, 0, 0, now.Location())`, whose
calendar arithmetic is outside the model. -/
def getStatistics (t : Table) (thisMonthStart : Time) : BookStatistics :=
  let allBooks := tableList t none 0 0
  let ratingSum : Int := allBooks.foldl (fun acc b => acc + b.rating.getD 0) 0
  let ratingCount := (allBooks.filter (fun b => b.rating.isSome)).length
  { totalBooks := tableCount t none
    notStartedBooks := tableCount t (some (statusFilter .notStarted))
    readingBooks := tableCount t (some (statusFilter .reading))
    completedBooks := tableCount t (some (statusFilter .completed))
    droppedBooks := tableCount t (some (statusFilter .dropped))
    totalSpent := allBooks.foldl (fun acc b => acc + b.purchasePrice) 0
    averageRating :=
      if ratingCount > 0 then some ((ratingSum : ℚ) / (ratingCount : ℚ)) else none
    booksThisMonth :=
      (allBooks.filter (fun b => decide (thisMonthStart ≤ b.purchaseDate))).length
    completedThisMonth :=
      (allBooks.filter (fun b =>
        b.endReadDate.any (fun d => decide (thisMonthStart ≤ d)) &&
        b.status == .completed)).length }

/-! HTTP layer (`book_handler.go`).  Each handler picks a fixed HTTP status
at its own call site of `sendErrorResponse`; we record the status each
operation produces for a given usecase outcome.  (The id-parse and JSON
decode failures, which Go answers with 400 before reaching the usecase, are
upstream of these functions.) -/

/-- `BookHandler.CreateBook`: 201 on success, 400 on any usecase error. -/
def handleCreateBook (t : Table) (req : CreateBookRequest) (now : Time) : Nat :=
  match createBook t req now with
  | .ok _ => 201
  | .error _ => 400

/-- `BookHandler.GetBook`: 200 on success, 404 on any usecase error. -/
def handleGetBook (t : Table) (id : Int) : Nat :=
  match getBook t id with
  | .ok _ => 200
  | .error _ => 404

/-- `BookHandler.UpdateBook`: 200 on success, 400 on any usecase error. -/
def handleUpdateBook (t : Table) (id : Int) (req : UpdateBookRequest) (now : Time) : Nat :=
  match updateBook t id req now with
  | .ok _ => 200
  | .error _ => 400

/-- `BookHandler.DeleteBook`: 200 on success, 404 on any usecase error. -/
def handleDeleteBook (t : Table) (id : Int) : Nat :=
  match deleteBook t id with
  | .ok _ => 200
  | .error _ => 404

/-- `BookHandler.StartReading`: 200 on success, 400 on any usecase error. -/
def handleStartReading (t : Table) (id : Int) (now : Time) : Nat :=
  match startReading t id now with
  | .ok _ => 200
  | .error _ => 400

/-- `BookHandler.FinishReading`: 200 on success, 400 on any usecase error. -/
def handleFinishReading (t : Table) (id : Int) (rating : Option Int) (now : Time) : Nat :=
  match finishReading t id rating now with
  | .ok _ => 200
  | .error _ => 400

/-- The transport mapping the spec (§4.3) claims: error kind alone selects
the status class.  Written from the spec's words, for comparison with the
per-call-site statuses the handlers actually use. -/
def specKindStatus : ErrKind → Nat
  | .invalidArgument => 400
  | .validationError => 400
  | .businessRuleError => 400
  | .badRequest => 400
  | .notFound => 404

/-- Store states reachable from a fresh database through the usecase
operations. -/
inductive Reachable : Table → Prop where
  | empty : Reachable emptyTable
  | create (t : Table) (req : CreateBookRequest) (now : Time) (t' : Table) (b : Book) :
      Reachable t → createBook t req now = .ok (t', b) → Reachable t'
  | update (t : Table) (id : Int) (req : UpdateBookRequest) (now : Time) (t' : Table) (b : Book) :
      Reachable t → updateBook t id req now = .ok (t', b) → Reachable t'
  | start (t : Table) (id : Int) (now : Time) (t' : Table) (b : Book) :
      Reachable t → startReading t id now = .ok (t', b) → Reachable t'
  | finish (t : Table) (id : Int) (rating : Option Int) (now : Time) (t' : Table) (b : Book) :
      Reachable t → finishReading t id rating now = .ok (t', b) → Reachable t'
  | delete (t : Table) (id : Int) (t' : Table) :
      Reachable t → deleteBook t id = .ok t' → Reachable t'

/-! Concrete data used by witnesses and counterexamples. -/

/-- A well-formed create request used in concrete scenarios. -/
def reqA : CreateBookRequest :=
  { title := "A", author := "B", isbn := "", publisher := "", publishedDate := none
    purchaseDate := 3, purchasePrice := 1000, tags := "", notes := "" }

/-- The book `reqA` creates at time 5 with rowid 1. -/
def bk1 : Book :=
  { id := 1, title := "A", author := "B", isbn := "", publisher := ""
    publishedDate := none, purchaseDate := 3, purchasePrice := 1000
    status := .notStarted, startReadDate := none, endReadDate := none
    rating := none, notes := "", tags := "", createdAt := 5, updatedAt := 5 }

/-- The table holding just `bk1`. -/
def tb1 : Table := { rows := [bk1], nextId := 2 }

/-- A partial update carrying only a rating. -/
def updRating4 : UpdateBookRequest := { rating := some 4 }

/-- `bk1` after `updateBook` with `updRating4` at time 6. -/
def bk2 : Book := { bk1 with rating := some 4, updatedAt := 6 }

/-- The table holding just `bk2`. -/
def tb2 : Table := { rows := [bk2], nextId := 2 }

/-- A partial update carrying only `status := reading`. -/
def updToReading : UpdateBookRequest := { status := some .reading }

/-- `bk2` after the direct status update at time 7 (start date stamped). -/
def bk3 : Book := { bk2 with status := .reading, startReadDate := some 7, updatedAt := 7 }

/-- The table holding just `bk3`. -/
def tb3 : Table := { rows := [bk3], nextId := 2 }

/-- `bk3` after `finishReading` without a rating at time 8. -/
def bk4 : Book := { bk3 with status := .completed, endReadDate := some 8, updatedAt := 8 }

/-- The table holding just `bk4`. -/
def tb4 : Table := { rows := [bk4], nextId := 2 }

/-- A partial update carrying only a title. -/
def updTitleX : UpdateBookRequest := { title := some "X" }

/-- A create request whose title is empty and whose purchase date lies in
the future of time 5. -/
def reqBad : CreateBookRequest :=
  { title := "", author := "B", isbn := "", publisher := "", publishedDate := none
    purchaseDate := 9, purchasePrice := 0, tags := "", notes := "" }

/-- The all-absent partial update. -/
def updNothing : UpdateBookRequest := {}

/-- `bk1` after `updateBook` with `updTitleX` at time 10. -/
def bk5 : Book := { bk1 with title := "X", updatedAt := 10 }

/-- The table holding just `bk5`. -/
def tb5 : Table := { rows := [bk5], nextId := 2 }

/-- `bk5` after repeating the same update at time 11. -/
def bk6 : Book := { bk5 with updatedAt := 11 }

/-- The table holding just `bk6`. -/
def tb6 : Table := { rows := [bk6], nextId := 2 }

/-! Helper lemmas shared by the claim theorems. -/

theorem applyUpdateRow_id (req : UpdateBookRequest) (now : Time) (b : Book) :
    (applyUpdateRow req now b).id = b.id := rfl

theorem applyUpdateRow_rating (req : UpdateBookRequest) (now : Time) (b : Book) :
    (applyUpdateRow req now b).rating =
      match req.rating with | some r => some r | none => b.rating := rfl

theorem find?_map_update (id : Int) (g : Book → Book) (hg : ∀ x, (g x).id = x.id)
    (rows : List Book) (b : Book)
    (h : rows.find? (fun x => x.id == id) = some b) :
    (rows.map (fun x => if x.id == id then g x else x)).find? (fun x => x.id == id)
      = some (g b) := by
  induction rows with
  | nil => simp at h
  | cons a as ih =>
    by_cases ha : (a.id == id) = true
    · rw [List.find?_cons_of_pos (p := fun x : Book => x.id == id) as ha] at h
      cases h
      simp only [List.map_cons, if_pos ha]
      exact List.find?_cons_of_pos (p := fun x : Book => x.id == id) _
        (by simpa [hg] using ha)
    · rw [List.find?_cons_of_neg (p := fun x : Book => x.id == id) as ha] at h
      simp only [List.map_cons, if_neg ha]
      rw [List.find?_cons_of_neg (p := fun x : Book => x.id == id) _ ha]
      exact ih h

theorem getByID_updatedTable (t : Table) (id : Int) (req : UpdateBookRequest) (now : Time)
    (b : Book) (hget : getByID t id = some b) :
    getByID (updatedTable t id req now) id = some (applyUpdateRow req now b) := by
  simpa [getByID, updatedTable] using
    find?_map_update id (fun x => applyUpdateRow req now x) (fun x => rfl) t.rows b hget

theorem tableUpdate_found (t : Table) (id : Int) (req : UpdateBookRequest) (now : Time)
    (b : Book) (hget : getByID t id = some b) (hany : hasAnyField req = true) :
    tableUpdate t id req now =
      (updatedTable t id req now, some (applyUpdateRow req now b)) := by
  simp only [tableUpdate, if_pos hany, Prod.mk.injEq]
  exact ⟨trivial, getByID_updatedTable t id req now b hget⟩

theorem getD_idem {α : Type} (o : Option α) (x : α) :
    o.getD (o.getD x) = o.getD x := by
  cases o <;> rfl

theorem matchesFilters_agree (f : Option BookFilter) (b : Book) :
    matchesListFilter f b = matchesCountFilter f b := by
  cases f <;> rfl

theorem matchesCountFilter_none (b : Book) : matchesCountFilter none b = true := rfl

theorem matchesCountFilter_status (s : ReadingStatus) (b : Book) :
    matchesCountFilter (some (statusFilter s)) b = (b.status == s) := by
  simp [matchesCountFilter, statusFilter]

theorem tableCount_none (t : Table) : tableCount t none = t.rows.length := by
  unfold tableCount
  rw [List.filter_congr (fun b _ => matchesCountFilter_none b)]
  simp

theorem tableCount_statusFilter (t : Table) (s : ReadingStatus) :
    tableCount t (some (statusFilter s)) =
      (t.rows.filter (fun b => b.status == s)).length := by
  unfold tableCount
  exact congrArg List.length (List.filter_congr (fun b _ => matchesCountFilter_status s b))

theorem length_filter_status_sum (rows : List Book) :
    rows.length =
      (rows.filter (fun b => b.status == ReadingStatus.notStarted)).length +
      (rows.filter (fun b => b.status == ReadingStatus.reading)).length +
      (rows.filter (fun b => b.status == ReadingStatus.completed)).length +
      (rows.filter (fun b => b.status == ReadingStatus.dropped)).length := by
  induction rows with
  | nil => rfl
  | cons a as ih =>
    cases ha : a.status <;> simp [List.filter_cons, ha, ih] <;> omega

theorem hasAnyField_false_rating (req : UpdateBookRequest) (h : hasAnyField req = false) :
    req.rating = none := by
  cases hr : req.rating with
  | none => rfl
  | some r => simp [hasAnyField, hr] at h

/-- C3: for every store state and every filter, the number of rows returned
by `List(filter, 0, 0)` (limit 0 = unbounded) equals `Count(filter)`: the two
operations apply their — separately assembled — filter predicates
identically. -/
theorem list_count_agree (t : Table) (f : Option BookFilter) :
    (tableList t f 0 0).length = tableCount t f := by
  simp only [tableList, tableCount, orderByCreatedAtDesc]
  rw [if_neg (by omega)]
  rw [List.length_mergeSort]
  exact congrArg List.length (List.filter_congr (fun b _ => matchesFilters_agree f b))

/-- C4: for every store population, `GetStatistics` returns a `total_books`
equal to the sum of the four per-status counts. -/
theorem statistics_total_books (t : Table) (m : Time) :
    (getStatistics t m).totalBooks =
      (getStatistics t m).notStartedBooks + (getStatistics t m).readingBooks +
        (getStatistics t m).completedBooks + (getStatistics t m).droppedBooks := by
  simp only [getStatistics]
  rw [tableCount_none, tableCount_statusFilter, tableCount_statusFilter,
    tableCount_statusFilter, tableCount_statusFilter]
  exact length_filter_status_sum t.rows

/-- C10: a partial update carrying no field at all performs no write: it
succeeds and returns the stored book with every field unchanged, including
`updated_at`, and leaves the table untouched. -/
theorem updateBook_noop (t : Table) (id : Int) (req : UpdateBookRequest) (now : Time)
    (b : Book) (hid : 0 < id) (hget : getByID t id = some b)
    (hnone : hasAnyField req = false) :
    updateBook t id req now = .ok (t, b) := by
  have hrat : req.rating = none := hasAnyField_false_rating req hnone
  have hid' : ¬ id ≤ 0 := by omega
  simp [updateBook, tableUpdate, hget, hrat, hnone, ratingOutOfRange, hid']

/-- Witness for C10: the all-absent update on the one-book table returns the
table and the book unchanged. -/
theorem updateBook_noop_witness :
    (0 : Int) < 1 ∧ getByID tb1 1 = some bk1 ∧ hasAnyField updNothing = false ∧
      updateBook tb1 1 updNothing 9 = .ok (tb1, bk1) :=
  ⟨by decide, by decide, by decide,
    updateBook_noop tb1 1 updNothing 9 bk1 (by decide) (by decide) (by decide)⟩

/-- Counterexample to C6 as stated: a request whose purchase date lies
strictly in the future but whose title is empty fails with the validation
error, not the business-rule error — field validation runs first. -/
theorem createBook_future_counterexample :
    (5 : Time) < reqBad.purchaseDate ∧
    createBook emptyTable reqBad 5 = .error .validationError ∧
    createBook emptyTable reqBad 5 ≠ .error .businessRuleError :=
  ⟨by decide, by decide, by decide⟩

/-- C6 (amended): for every create request passing field validation
(non-empty title and author, present purchase date), CreateBook succeeds
when the purchase date is not strictly after the current time, returning a
book with status `not_started` and both read dates absent, and fails with
the business-rule error when the purchase date is strictly after the
current time. -/
theorem createBook_valid_or_future (t : Table) (req : CreateBookRequest) (now : Time)
    (htitle : ¬ req.title = "") (hauthor : ¬ req.author = "")
    (hdate : ¬ req.purchaseDate = timeZero) :
    (¬ now < req.purchaseDate →
      ∃ t' b, createBook t req now = .ok (t', b) ∧ b.status = .notStarted ∧
        b.startReadDate = none ∧ b.endReadDate = none) ∧
    (now < req.purchaseDate → createBook t req now = .error .businessRuleError) := by
  have hv : (req.title == "" || req.author == "" || req.purchaseDate == timeZero) = false := by
    simp [htitle, hauthor, hdate]
  constructor
  · intro hnow
    exact ⟨(tableCreate t req now).1, (tableCreate t req now).2,
      by simp [createBook, hv, hnow], rfl, rfl, rfl⟩
  · intro hnow
    simp [createBook, hv, hnow]

/-- Witness for the amended C6: `reqA` at time 5 creates a not-started book
with both read dates absent. -/
theorem createBook_valid_witness :
    ∃ t' b, createBook emptyTable reqA 5 = .ok (t', b) ∧ b.status = .notStarted ∧
      b.startReadDate = none ∧ b.endReadDate = none :=
  (createBook_valid_or_future emptyTable reqA 5 (by decide) (by decide) (by decide)).1
    (by decide)

/-- Counterexample to C8 as stated: on the update operation a not-found
engine error is answered with the client-error status 400, while a mapping
driven by the error kind would answer with the not-found status 404. -/
theorem handler_kind_mapping_counterexample :
    updateBook emptyTable 1 updTitleX 0 = .error .notFound ∧
    handleUpdateBook emptyTable 1 updTitleX 0 = 400 ∧
    specKindStatus .notFound = 404 ∧
    handleUpdateBook emptyTable 1 updTitleX 0 ≠ specKindStatus .notFound :=
  ⟨by decide, by decide, by decide, by decide⟩

/-- C8 (amended): the transport status is fixed per handler call site, not
selected by the error kind: create, update, start-reading and
finish-reading answer every engine error with 400; get and delete answer
every engine error with 404 (list and statistics, whose only failures are
store I/O failures outside this model, answer theirs with 500). -/
theorem handler_status_per_call_site (t : Table) (id : Int) (creq : CreateBookRequest)
    (ureq : UpdateBookRequest) (rating : Option Int) (now : Time) :
    (∀ e, createBook t creq now = .error e → handleCreateBook t creq now = 400) ∧
    (∀ e, getBook t id = .error e → handleGetBook t id = 404) ∧
    (∀ e, updateBook t id ureq now = .error e → handleUpdateBook t id ureq now = 400) ∧
    (∀ e, deleteBook t id = .error e → handleDeleteBook t id = 404) ∧
    (∀ e, startReading t id now = .error e → handleStartReading t id now = 400) ∧
    (∀ e, finishReading t id rating now = .error e → handleFinishReading t id rating now = 400) := by
  refine ⟨?_, ?_, ?_, ?_, ?_, ?_⟩ <;> intro e h <;>
    simp [handleCreateBook, handleGetBook, handleUpdateBook, handleDeleteBook,
      handleStartReading, handleFinishReading, h]

/-- Witness for the amended C8: the not-found failure of update on the
empty store is answered with 400. -/
theorem handler_status_witness : handleUpdateBook emptyTable 1 updTitleX 0 = 400 :=
  (handler_status_per_call_site emptyTable 1 reqA updTitleX none 0).2.2.1 .notFound
    (by decide)

/-- C1: for a stored book whose status is not-started or dropped,
StartReading succeeds, setting status to reading and the start-read date to
the current time, and a second StartReading on the result fails with the
business-rule error; for a stored book whose status is reading or
completed, StartReading fails with the business-rule error. -/
theorem startReading_guarded (t : Table) (id : Int) (now now2 : Time) (b : Book)
    (hid : 0 < id) (hget : getByID t id = some b) :
    ((b.status = .notStarted ∨ b.status = .dropped) →
      ∃ t' b', startReading t id now = .ok (t', b') ∧
        b'.status = .reading ∧ b'.startReadDate = some now ∧
        startReading t' id now2 = .error .businessRuleError) ∧
    ((b.status = .reading ∨ b.status = .completed) →
      startReading t id now = .error .businessRuleError) := by
  have hid' : ¬ id ≤ 0 := by omega
  constructor
  · intro hs
    have hnr : (b.status == ReadingStatus.reading) = false := by
      rcases hs with h | h <;> simp [h]
    have hnc : (b.status == ReadingStatus.completed) = false := by
      rcases hs with h | h <;> simp [h]
    have hupd := tableUpdate_found t id (startReq now) now b hget
      (by simp [hasAnyField, startReq])
    have hget2 := getByID_updatedTable t id (startReq now) now b hget
    refine ⟨updatedTable t id (startReq now) now, applyUpdateRow (startReq now) now b,
      ?_, rfl, rfl, ?_⟩
    · simp [startReading, hid', hget, hnr, hnc, hupd]
    · have hst : (applyUpdateRow (startReq now) now b).status = ReadingStatus.reading := rfl
      simp [startReading, hid', hget2, hst]
  · intro hs
    rcases hs with h | h <;> simp [startReading, hid', hget, h]

/-- Witness for C1: starting to read the not-started book `bk1` at time 7
succeeds and starting again at time 8 fails. -/
theorem startReading_witness :
    ∃ t' b', startReading tb1 1 7 = .ok (t', b') ∧
      b'.status = .reading ∧ b'.startReadDate = some 7 ∧
      startReading t' 1 8 = .error .businessRuleError :=
  (startReading_guarded tb1 1 7 8 bk1 (by decide) (by decide)).1 (Or.inl (by decide))

/-- Counterexample to C2 as stated: `bk3` is a reading book already
carrying rating 4; FinishReading with the rating absent leaves that rating
in place, so the resulting book's rating is not unset. -/
theorem finishReading_keeps_prior_rating :
    getByID tb3 1 = some bk3 ∧ bk3.status = .reading ∧
    finishReading tb3 1 none 8 = .ok (tb4, bk4) ∧
    bk4.rating = some 4 ∧ ¬ bk4.rating = none :=
  ⟨by decide, by decide, by decide, by decide, by decide⟩

/-- C2 (amended): for a stored book whose status is reading, FinishReading
with the rating absent or in [1,5] succeeds, setting status to completed
and the end-read date to the current time, setting the rating when one is
provided, while an absent rating leaves the book's rating unchanged; it
fails with the business-rule error when the status is not reading, or when
a supplied rating lies outside [1,5]. -/
theorem finishReading_spec (t : Table) (id : Int) (now : Time) (b : Book)
    (rating : Option Int) (hid : 0 < id) (hget : getByID t id = some b) :
    (b.status = .reading → ratingOutOfRange rating = false →
      ∃ t' b', finishReading t id rating now = .ok (t', b') ∧
        b'.status = .completed ∧ b'.endReadDate = some now ∧
        (∀ r, rating = some r → b'.rating = some r) ∧
        (rating = none → b'.rating = b.rating)) ∧
    (¬ b.status = .reading → finishReading t id rating now = .error .businessRuleError) ∧
    (b.status = .reading → ratingOutOfRange rating = true →
      finishReading t id rating now = .error .businessRuleError) := by
  have hid' : ¬ id ≤ 0 := by omega
  refine ⟨?_, ?_, ?_⟩
  · intro hs hrat
    have hupd := tableUpdate_found t id (finishReq rating now) now b hget
      (by simp [hasAnyField, finishReq])
    refine ⟨updatedTable t id (finishReq rating now) now,
      applyUpdateRow (finishReq rating now) now b,
      ?_, rfl, rfl, ?_, ?_⟩
    · simp [finishReading, hid', hget, hs, hrat, hupd]
    · intro r hr
      rw [applyUpdateRow_rating]
      simp [finishReq, hr]
    · intro hr
      rw [applyUpdateRow_rating]
      simp [finishReq, hr]
  · intro hs
    simp [finishReading, hid', hget, hs]
  · intro hs hrat
    simp [finishReading, hid', hget, hs, hrat]

/-- Witness for the amended C2: finishing the reading book `bk3` without a
rating succeeds, completes it, stamps the end date, and keeps its rating. -/
theorem finishReading_witness :
    ∃ t' b', finishReading tb3 1 none 8 = .ok (t', b') ∧
      b'.status = .completed ∧ b'.endReadDate = some 8 ∧
      (∀ r, (none : Option Int) = some r → b'.rating = some r) ∧
      ((none : Option Int) = none → b'.rating = bk3.rating) :=
  (finishReading_spec tb3 1 8 bk3 none (by decide) (by decide)).1 (by decide) (by decide)

theorem applyUpdateRow_idem (req : UpdateBookRequest) (now : Time) (b : Book) :
    applyUpdateRow req now (applyUpdateRow req now b) = applyUpdateRow req now b := by
  apply Book.ext
  · rfl
  · cases hd : req.title <;> simp [applyUpdateRow, hd]
  · cases hd : req.author <;> simp [applyUpdateRow, hd]
  · cases hd : req.isbn <;> simp [applyUpdateRow, hd]
  · cases hd : req.publisher <;> simp [applyUpdateRow, hd]
  · cases hd : req.publishedDate <;> simp [applyUpdateRow, hd]
  · rfl
  · cases hd : req.purchasePrice <;> simp [applyUpdateRow, hd]
  · cases hd : req.status <;> simp [applyUpdateRow, hd]
  · cases hd : req.startReadDate <;>
      (simp [applyUpdateRow, hd]; try (intro h; simp [h]))
  · cases hd : req.endReadDate <;>
      (simp [applyUpdateRow, hd]; try (intro h; rcases h with h | h <;> simp [h]))
  · cases hd : req.rating <;> simp [applyUpdateRow, hd]
  · cases hd : req.notes <;> simp [applyUpdateRow, hd]
  · cases hd : req.tags <;> simp [applyUpdateRow, hd]
  · rfl
  · rfl

theorem updatedTable_idem (t : Table) (id : Int) (req : UpdateBookRequest) (now : Time) :
    updatedTable (updatedTable t id req now) id req now = updatedTable t id req now := by
  simp only [updatedTable, List.map_map]
  congr 1
  apply List.map_congr_left
  intro x _
  by_cases hxi : (x.id == id) = true
  · simp [Function.comp, hxi, applyUpdateRow_id, applyUpdateRow_idem]
  · simp [Function.comp, hxi]

/-- Counterexample to C5 as stated: repeating the identical partial update
one time unit later yields a different book state — the updated-at
timestamp (refreshed by the trigger on every write) moves. -/
theorem updateBook_not_idempotent_across_time :
    updateBook tb1 1 updTitleX 10 = .ok (tb5, bk5) ∧
    updateBook tb5 1 updTitleX 11 = .ok (tb6, bk6) ∧
    ¬ bk6 = bk5 :=
  ⟨by decide, by decide, by decide⟩

/-- C5 (amended): repeating the same partial update with identical values
is idempotent when both applications observe the same current time: the
second application returns exactly the table and book the first one
produced. -/
theorem updateBook_idem (t : Table) (id : Int) (req : UpdateBookRequest) (now : Time)
    (t1 : Table) (b1 : Book) (h : updateBook t id req now = .ok (t1, b1)) :
    updateBook t1 id req now = .ok (t1, b1) := by
  by_cases hid : id ≤ 0
  · simp [updateBook, hid] at h
  cases hget : getByID t id with
  | none => simp [updateBook, hid, hget] at h
  | some b0 =>
    by_cases hrat : ratingOutOfRange req.rating = true
    · simp [updateBook, hid, hget, hrat] at h
    by_cases hany : hasAnyField req = true
    · have hupd := tableUpdate_found t id req now b0 hget hany
      have h' : updatedTable t id req now = t1 ∧ applyUpdateRow req now b0 = b1 := by
        simpa [updateBook, hid, hget, hrat, hupd] using h
      obtain ⟨ht1, hb1⟩ := h'
      subst ht1
      subst hb1
      have hget1 := getByID_updatedTable t id req now b0 hget
      have hupd1 := tableUpdate_found (updatedTable t id req now) id req now
        (applyUpdateRow req now b0) hget1 hany
      simp [updateBook, hid, hget1, hrat, hupd1, updatedTable_idem, applyUpdateRow_idem]
    · have hany' : hasAnyField req = false := by simpa using hany
      have h' : t = t1 ∧ b0 = b1 := by
        simpa [updateBook, tableUpdate, hid, hget, hrat, hany'] using h
      obtain ⟨ht1, hb1⟩ := h'
      subst ht1
      subst hb1
      simp [updateBook, tableUpdate, hid, hget, hrat, hany']

/-- Witness for the amended C5: repeating the title update on `tb1` at the
same time 10 returns the state of the first application unchanged. -/
theorem updateBook_idem_witness :
    updateBook tb5 1 updTitleX 10 = .ok (tb5, bk5) :=
  updateBook_idem tb1 1 updTitleX 10 tb5 bk5 (by decide)

theorem tableUpdate_fst (t : Table) (id : Int) (req : UpdateBookRequest) (now : Time) :
    (tableUpdate t id req now).1 = t ∨
      (tableUpdate t id req now).1 = updatedTable t id req now := by
  unfold tableUpdate
  split <;> simp

theorem createBook_ok_inv (t : Table) (req : CreateBookRequest) (now : Time)
    (t' : Table) (b' : Book) (h : createBook t req now = .ok (t', b')) :
    t' = (tableCreate t req now).1 := by
  simp only [createBook] at h
  split at h
  · simp at h
  split at h
  · simp at h
  simp only [Except.ok.injEq] at h
  exact (congrArg Prod.fst h).symm

theorem updateBook_ok_inv (t : Table) (id : Int) (req : UpdateBookRequest) (now : Time)
    (t' : Table) (b' : Book) (h : updateBook t id req now = .ok (t', b')) :
    ratingOutOfRange req.rating = false ∧
      (t' = t ∨ t' = updatedTable t id req now) := by
  simp only [updateBook] at h
  split at h
  · simp at h
  split at h
  · simp at h
  split at h
  · simp at h
  rename_i hrat
  refine ⟨by simpa using hrat, ?_⟩
  split at h
  · rename_i t'' b'' heq
    simp only [Except.ok.injEq, Prod.mk.injEq] at h
    obtain ⟨h1, _⟩ := h
    subst h1
    have hf : (tableUpdate t id req now).1 = t'' := by rw [heq]
    rcases tableUpdate_fst t id req now with hx | hx
    · left; rw [← hf, hx]
    · right; rw [← hf, hx]
  · simp at h

theorem startReading_ok_inv (t : Table) (id : Int) (now : Time)
    (t' : Table) (b' : Book) (h : startReading t id now = .ok (t', b')) :
    t' = t ∨ t' = updatedTable t id (startReq now) now := by
  simp only [startReading] at h
  split at h
  · simp at h
  split at h
  · simp at h
  split at h
  · simp at h
  split at h
  · simp at h
  split at h
  · rename_i t'' b'' heq
    simp only [Except.ok.injEq, Prod.mk.injEq] at h
    obtain ⟨h1, _⟩ := h
    subst h1
    have hf : (tableUpdate t id (startReq now) now).1 = t'' := by rw [heq]
    rcases tableUpdate_fst t id (startReq now) now with hx | hx
    · left; rw [← hf, hx]
    · right; rw [← hf, hx]
  · simp at h

theorem finishReading_ok_inv (t : Table) (id : Int) (rating : Option Int) (now : Time)
    (t' : Table) (b' : Book) (h : finishReading t id rating now = .ok (t', b')) :
    ratingOutOfRange rating = false ∧
      (t' = t ∨ t' = updatedTable t id (finishReq rating now) now) := by
  simp only [finishReading] at h
  split at h
  · simp at h
  split at h
  · simp at h
  split at h
  · simp at h
  split at h
  · simp at h
  rename_i hrat
  refine ⟨by simpa using hrat, ?_⟩
  split at h
  · rename_i t'' b'' heq
    simp only [Except.ok.injEq, Prod.mk.injEq] at h
    obtain ⟨h1, _⟩ := h
    subst h1
    have hf : (tableUpdate t id (finishReq rating now) now).1 = t'' := by rw [heq]
    rcases tableUpdate_fst t id (finishReq rating now) now with hx | hx
    · left; rw [← hf, hx]
    · right; rw [← hf, hx]
  · simp at h

theorem deleteBook_ok_inv (t : Table) (id : Int) (t' : Table)
    (h : deleteBook t id = .ok t') : t' = (tableDelete t id).1 := by
  simp only [deleteBook] at h
  split at h
  · simp at h
  split at h
  · simp at h
  split at h
  · simp at h
  · simp only [Except.ok.injEq] at h
    exact h.symm

theorem rating_after_update (req : UpdateBookRequest) (now : Time) (rows : List Book)
    (id : Int) (hok : ratingOutOfRange req.rating = false)
    (ih : ∀ b ∈ rows, ∀ r : Int, b.rating = some r → 1 ≤ r ∧ r ≤ 5) :
    ∀ b ∈ rows.map (fun x => if x.id == id then applyUpdateRow req now x else x),
      ∀ r : Int, b.rating = some r → 1 ≤ r ∧ r ≤ 5 := by
  intro b hb r hr
  obtain ⟨x, hx, hbx⟩ := List.mem_map.mp hb
  by_cases hxi : (x.id == id) = true
  · rw [if_pos hxi] at hbx
    subst hbx
    rw [applyUpdateRow_rating] at hr
    cases hq : req.rating with
    | none =>
      rw [hq] at hr
      exact ih x hx r hr
    | some r0 =>
      rw [hq] at hr
      simp at hr
      rw [hq] at hok
      simp [ratingOutOfRange] at hok
      omega
  · rw [if_neg hxi] at hbx
    subst hbx
    exact ih x hx r hr

/-- A table holding a rated, not-started book is reachable: create a book,
then set its rating by direct partial update. -/
theorem reachable_tb2 : Reachable tb2 :=
  Reachable.update tb1 1 updRating4 6 tb2 bk2
    (Reachable.create emptyTable reqA 5 tb1 bk1 Reachable.empty (by decide))
    (by decide)

/-- Counterexample to C7 as stated: on the reachable table `tb2` the book
`bk2` carries rating 4 while its status is still not-started — a direct
partial update persists a rating without any status restriction. -/
theorem rating_settable_before_reading :
    ¬ (∀ t : Table, Reachable t → ∀ b ∈ t.rows, b.rating.isSome = true →
        (b.status = ReadingStatus.reading ∨ b.status = ReadingStatus.completed ∨
          b.status = ReadingStatus.dropped)) := by
  intro hcl
  exact absurd (hcl tb2 reachable_tb2 bk2 (by decide) (by decide)) (by decide)

/-- C7 (amended): no operation constrains a rating to the reading-or-later
statuses — a direct partial update persists a rating on a book of any
status — but every rating ever persisted is validated, so every reachable
book with a present rating has that rating in [1,5]. -/
theorem reachable_rating_in_range (t : Table) (h : Reachable t) :
    ∀ b ∈ t.rows, ∀ r : Int, b.rating = some r → 1 ≤ r ∧ r ≤ 5 := by
  induction h with
  | empty =>
    intro b hb _ _
    simp [emptyTable] at hb
  | create t0 req now t' bb _ hop ih =>
    intro b hb r hr
    rw [createBook_ok_inv t0 req now t' bb hop] at hb
    simp only [tableCreate] at hb
    rcases List.mem_append.mp hb with hm | hm
    · exact ih b hm r hr
    · rw [List.mem_singleton.mp hm] at hr
      simp at hr
  | update t0 id req now t' bb _ hop ih =>
    intro b hb r hr
    obtain ⟨hok, hca⟩ := updateBook_ok_inv t0 id req now t' bb hop
    rcases hca with hx | hx
    · exact ih b (by rwa [hx] at hb) r hr
    · rw [hx] at hb
      exact rating_after_update req now t0.rows id hok ih b
        (by simpa [updatedTable] using hb) r hr
  | start t0 id now t' bb _ hop ih =>
    intro b hb r hr
    rcases startReading_ok_inv t0 id now t' bb hop with hx | hx
    · exact ih b (by rwa [hx] at hb) r hr
    · rw [hx] at hb
      exact rating_after_update (startReq now) now t0.rows id rfl ih b
        (by simpa [updatedTable] using hb) r hr
  | finish t0 id rating now t' bb _ hop ih =>
    intro b hb r hr
    obtain ⟨hok, hca⟩ := finishReading_ok_inv t0 id rating now t' bb hop
    rcases hca with hx | hx
    · exact ih b (by rwa [hx] at hb) r hr
    · rw [hx] at hb
      exact rating_after_update (finishReq rating now) now t0.rows id hok ih b
        (by simpa [updatedTable] using hb) r hr
  | delete t0 id t' _ hop ih =>
    intro b hb r hr
    rw [deleteBook_ok_inv t0 id t' hop] at hb
    simp only [tableDelete] at hb
    exact ih b (List.mem_of_mem_filter hb) r hr

/-- Witness for the amended C7: the rating 4 carried by the reachable book
`bk2` lies in [1,5]. -/
theorem reachable_rating_witness : 1 ≤ (4 : Int) ∧ (4 : Int) ≤ 5 :=
  reachable_rating_in_range tb2 reachable_tb2 bk2 (by decide) 4 (by decide)

theorem createdDesc_trans : ∀ (a b c : Book),
    createdDesc a b → createdDesc b c → createdDesc a c := by
  intro a b c h1 h2
  simp [createdDesc] at h1 h2 ⊢
  exact le_trans h2 h1

theorem createdDesc_total : ∀ (a b : Book), createdDesc a b || createdDesc b a := by
  intro a b
  simp [createdDesc]
  exact le_total _ _

/-- C9: every page returned by `List` is ordered descending by creation
time, and within a page the books sharing one creation time form a sublist
of the table in rowid (insertion) order — the ordering is stable. -/
theorem list_sorted_stable (t : Table) (f : Option BookFilter) (limit offset : Int) :
    (tableList t f limit offset).Pairwise (fun a b => b.createdAt ≤ a.createdAt) ∧
    ∀ tm : Time,
      List.Sublist ((tableList t f limit offset).filter (fun b => b.createdAt == tm))
        (t.rows.filter (fun b => b.createdAt == tm)) := by
  have hpage : List.Sublist (tableList t f limit offset)
      ((t.rows.filter (matchesListFilter f)).mergeSort createdDesc) := by
    unfold tableList orderByCreatedAtDesc
    split
    · split
      · exact (List.take_sublist _ _).trans (List.drop_sublist _ _)
      · exact List.take_sublist _ _
    · exact List.Sublist.refl _
  have hsorted : ((t.rows.filter (matchesListFilter f)).mergeSort createdDesc).Pairwise
      (fun a b => b.createdAt ≤ a.createdAt) := by
    have hs := List.sorted_mergeSort createdDesc_trans createdDesc_total
      (t.rows.filter (matchesListFilter f))
    exact hs.imp (fun hab => by simpa [createdDesc] using hab)
  constructor
  · exact List.Pairwise.sublist hpage hsorted
  · intro tm
    have hcPair : ((t.rows.filter (matchesListFilter f)).filter
        (fun b => b.createdAt == tm)).Pairwise (fun a b => createdDesc a b) := by
      apply List.pairwise_of_forall_mem_list
      intro a ha b hb
      have ha' := (List.mem_filter.mp ha).2
      have hb' := (List.mem_filter.mp hb).2
      simp only [beq_iff_eq] at ha' hb'
      simp [createdDesc, ha', hb']
    have hcSub : List.Sublist
        ((t.rows.filter (matchesListFilter f)).filter (fun b => b.createdAt == tm))
        (t.rows.filter (matchesListFilter f)) :=
      List.filter_sublist _
    have hcS := List.sublist_mergeSort createdDesc_trans createdDesc_total hcPair hcSub
    have hperm : List.Perm
        (((t.rows.filter (matchesListFilter f)).mergeSort createdDesc).filter
          (fun b => b.createdAt == tm))
        ((t.rows.filter (matchesListFilter f)).filter (fun b => b.createdAt == tm)) :=
      List.Perm.filter _
        (List.mergeSort_perm (t.rows.filter (matchesListFilter f)) createdDesc)
    have hceq : ((t.rows.filter (matchesListFilter f)).mergeSort createdDesc).filter
          (fun b => b.createdAt == tm) =
        (t.rows.filter (matchesListFilter f)).filter (fun b => b.createdAt == tm) := by
      have hsub2 := hcS.filter (fun b => b.createdAt == tm)
      rw [List.filter_eq_self.mpr (fun a ha => (List.mem_filter.mp ha).2)] at hsub2
      exact (hsub2.eq_of_length hperm.length_eq.symm).symm
    have hfinal := hpage.filter (fun b => b.createdAt == tm)
    rw [hceq] at hfinal
    exact hfinal.trans ((List.filter_sublist t.rows).filter _)

end BookManager
